import Mathlib

/-!
Verification of the cairo-debugger core against its specification.

The development shallowly embeds the debugger's data model and operations:

* `CallStack` with its deferred push/pop action (`src/debugger/call_stack.rs`);
* the pc → sierra-statement translation `statement_idx_for_pc` and the
  line → pc breakpoint index `build_file_locations_map`
  (`src/debugger/context.rs`);
* the session state's breakpoint table (`src/debugger/state.rs`);
* the request dispatch table (`src/debugger/handler.rs`), the per-step
  synchronization loop and the teardown sequence (`src/debugger.rs`).

Machine integers (`usize`) are modelled as `Nat`; the pc values and
statement indices in play are small and never overflow in the modelled
paths, and Rust's `saturating_sub` matches `Nat` subtraction exactly.
-/

/-! ## CallStack (src/debugger/call_stack.rs) -/

/-- Classification of a sierra statement as computed by
`Context::is_function_call_statement` / `Context::is_return_statement`
(src/debugger/context.rs lines 119-133): an invocation of the
function-call libfunc, a return statement, or any other invocation.
The three cases are mutually exclusive in the source: a `Return` is not an
`Invocation`, and `is_function_call_statement` is false on returns. -/
inductive StmtKind
  | call
  | ret
  | other
deriving DecidableEq

/-- `Action` (src/debugger/call_stack.rs lines 31-34; named `StackAction` here because Mathlib already declares `Action`): the deferred stack
modification. -/
inductive StackAction
  | push (statement : Nat)
  | pop
deriving DecidableEq

/-- `CallStack` (src/debugger/call_stack.rs lines 13-29).  `call_ids` stores
the statement indices of the function-call statements of the open frames
(the per-frame `FunctionVariables` payload is an empty struct in the source
and is omitted); `action_on_new_statement` is the pending deferred action. -/
structure CallStack where
  call_ids : List Nat
  action_on_new_statement : Option StackAction
deriving DecidableEq

/-- `CallStack::default()`: empty stack, no pending action. -/
def CallStack.empty : CallStack := ⟨[], none⟩

/-- `CallStack::depth` (src/debugger/call_stack.rs lines 37-39). -/
def CallStack.depth (cs : CallStack) : Nat := cs.call_ids.length

/-- The `call_ids` vector after applying the pending deferred action
(the `match self.action_on_new_statement.take()` block of
`CallStack::update`, src/debugger/call_stack.rs lines 46-55):
`Vec::push` appends, `Vec::pop` removes the last element (a no-op on an
empty vector). -/
def CallStack.applyPendingAction (cs : CallStack) : List Nat :=
  match cs.action_on_new_statement with
  | some (StackAction.push statement) => cs.call_ids ++ [statement]
  | some StackAction.pop => cs.call_ids.dropLast
  | none => cs.call_ids

/-- The new deferred action decided from the statement that just became
current (the `if ctx.is_function_call_statement ... else if
ctx.is_return_statement ...` block of `CallStack::update`,
src/debugger/call_stack.rs lines 57-61). -/
def actionForStatement (ctx : Nat → StmtKind) (statement_idx : Nat) : Option StackAction :=
  if ctx statement_idx = StmtKind.call then some (StackAction.push statement_idx)
  else if ctx statement_idx = StmtKind.ret then some StackAction.pop
  else none

/-- `CallStack::update` (src/debugger/call_stack.rs lines 40-62): apply the
previously deferred action, then decide a new deferred action from the new
current statement. -/
def CallStack.update (cs : CallStack) (statement_idx : Nat) (ctx : Nat → StmtKind) :
    CallStack :=
  { call_ids := cs.applyPendingAction
    action_on_new_statement := actionForStatement ctx statement_idx }

/-- The stack depth observed at each statement of an observed statement
sequence: `depth()` sampled when the statement becomes current, before
`update` processes it (the first element is the depth before any update). -/
def depthsOnArrival (cs : CallStack) (ctx : Nat → StmtKind) : List Nat → List Nat
  | [] => []
  | s :: rest => cs.depth :: depthsOnArrival (cs.update s ctx) ctx rest

/-- The stack depth after each `update` of an observed statement sequence. -/
def depthsAfterUpdate (cs : CallStack) (ctx : Nat → StmtKind) : List Nat → List Nat
  | [] => []
  | s :: rest =>
    (cs.update s ctx).depth :: depthsAfterUpdate (cs.update s ctx) ctx rest

/-- A concrete statement classification: statement 3 is a function call,
statement 7 is a return, every other statement is a plain invocation. -/
def ctxCallAt3RetAt7 : Nat → StmtKind :=
  fun n => if n = 3 then StmtKind.call else if n = 7 then StmtKind.ret else StmtKind.other

/-! ## pc → statement translation (src/debugger/context.rs) -/

/-- Rust `<[T]>::partition_point(pred)`: the number of elements in the
initial satisfying prefix.  (Rust computes it by binary search; on a slice
that is partitioned by `pred` — as the sorted offset table is for
`offset <= pc` — the result is the length of the satisfying prefix.) -/
def partition_point (l : List Nat) (pred : Nat → Bool) : Nat :=
  (l.takeWhile pred).length

/-- `Context::statement_idx_for_pc` (src/debugger/context.rs lines 79-86):
`partition_point(|offset| offset <= pc).saturating_sub(1)`.  `Nat`
subtraction is saturating, matching `saturating_sub`. -/
def statement_idx_for_pc (statement_to_pc : List Nat) (pc : Nat) : Nat :=
  partition_point statement_to_pc (fun offset => offset ≤ pc) - 1

/-- `i` is the rightmost index of `offsets` whose entry is ≤ `pc`. -/
def IsRightmostLe (offsets : List Nat) (pc i : Nat) : Prop :=
  i < offsets.length ∧ offsets.getD i 0 ≤ pc ∧
    ∀ k, k < offsets.length → offsets.getD k 0 ≤ pc → k ≤ i

instance (offsets : List Nat) (pc i : Nat) : Decidable (IsRightmostLe offsets pc i) := by
  unfold IsRightmostLe
  infer_instance

/-! ## Breakpoint index construction (src/debugger/context.rs lines 140-219) -/

/-- The parts of a `CodeLocation` read by `build_file_locations_map`: the
source file full path and the start line and start column of the span
(both 0-indexed, as in the debug info). -/
structure Loc where
  file : String
  line : Nat
  col : Nat
deriving DecidableEq

/-- `statement_to_pc[idx]`, the start CASM offset of a statement
(`statement_to_pc.get(idx).expect(..)` in the source; theorems about it
carry the validity hypothesis `idx < statement_to_pc.length` that the
`expect` enforces by panicking). -/
def stmtPc (statement_to_pc : List Nat) (idx : Nat) : Nat :=
  statement_to_pc.getD idx 0

/-- Negation of the skip test of `build_file_locations_map`
(src/debugger/context.rs lines 173-178): a statement is hittable unless the
next statement exists and starts at the same pc.  This is `is_hittable` of
spec §4.1 (the last statement, having no successor, is hittable). -/
def isHittable (statement_to_pc : List Nat) (idx : Nat) : Bool :=
  match statement_to_pc.get? (idx + 1) with
  | some pcNext => pcNext != stmtPc statement_to_pc idx
  | none => true

/-- The replacement rule of the `and_modify` closure
(src/debugger/context.rs lines 193-201): the incoming `(col, pc)` replaces
the stored entry iff its column is smaller, or the columns tie and its pc is
smaller. -/
def min2 (a b : Nat × Nat) : Nat × Nat :=
  if b.1 < a.1 ∨ (b.1 = a.1 ∧ b.2 < a.2) then b else a

/-- One insertion into the intermediate `Path -> Line -> (min column, pc)`
map (the `lines_in_file.entry(line).and_modify(..).or_insert(..)` step).
The two nested hash maps are modelled as one function keyed by
`(file, line)`, `none` meaning the key is absent. -/
def insertLinePc (m : String × Nat → Option (Nat × Nat)) (key : String × Nat)
    (col pc : Nat) : String × Nat → Option (Nat × Nat) :=
  fun k =>
    if k = key then
      match m key with
      | none => some (col, pc)
      | some existing => some (min2 existing (col, pc))
    else m k

/-- Processing of one `(statement index, code locations)` annotation entry by
`build_file_locations_map`: skip the statement when it is non-hittable,
otherwise insert every one of its locations. -/
def insertStatement (statement_to_pc : List Nat)
    (m : String × Nat → Option (Nat × Nat)) (entry : Nat × List Loc) :
    String × Nat → Option (Nat × Nat) :=
  if isHittable statement_to_pc entry.1 then
    entry.2.foldl
      (fun m loc =>
        insertLinePc m (loc.file, loc.line) loc.col (stmtPc statement_to_pc entry.1))
      m
  else m

/-- `build_file_locations_map` (src/debugger/context.rs lines 141-219) over
the statement annotation entries listed in some processing order (the source
iterates a `HashMap`, whose order is unspecified). -/
def build_file_locations_map (statement_to_pc : List Nat)
    (annots : List (Nat × List Loc)) : String × Nat → Option (Nat × Nat) :=
  annots.foldl (insertStatement statement_to_pc) (fun _ => none)

/-- `Context::get_pc_for_line` (src/debugger/context.rs lines 108-117):
look the line up in the per-file map; the final map drops the column. -/
def get_pc_for_line (statement_to_pc : List Nat) (annots : List (Nat × List Loc))
    (source : String) (line : Nat) : Option Nat :=
  (build_file_locations_map statement_to_pc annots (source, line)).map Prod.snd

/-- The `(column, pc)` pairs that `build_file_locations_map` considers for a
given `(file, line)` key: one per code location on that file and line of
each hittable (non-skipped) statement. -/
def candidatesFor (statement_to_pc : List Nat) (annots : List (Nat × List Loc))
    (key : String × Nat) : List (Nat × Nat) :=
  annots.flatMap fun entry =>
    if isHittable statement_to_pc entry.1 then
      entry.2.filterMap fun loc =>
        if (loc.file, loc.line) = key then
          some (loc.col, stmtPc statement_to_pc entry.1)
        else none
    else []

/-- Folding step accumulating the `(col, pc)`-lexicographic minimum, exactly
as repeated `insertLinePc` at one key computes it. -/
def minStep (acc : Option (Nat × Nat)) (c : Nat × Nat) : Option (Nat × Nat) :=
  match acc with
  | none => some c
  | some a => some (min2 a c)

/-- `(col, pc)`-lexicographic minimum of a list, left-biased like the
`and_modify` rule. -/
def minLex? (l : List (Nat × Nat)) : Option (Nat × Nat) :=
  l.foldl minStep none

/-- Non-strict lexicographic order on `(col, pc)` pairs. -/
def lexLe (a b : Nat × Nat) : Prop :=
  a.1 < b.1 ∨ (a.1 = b.1 ∧ a.2 ≤ b.2)

/-! ## Session breakpoint table (src/debugger/state.rs) -/

/-- `State::verify_and_set_breakpoint` (src/debugger/state.rs lines 62-81):
resolve the line through the context; when it resolves, record the returned
statement indices under the source path and report `true`, otherwise leave
the table unchanged and report `false`.  The breakpoint table
`State.breakpoints` (source path → set of statement indices) is modelled as
a function returning the recorded indices, `[]` for an absent entry
(`HashMap` entry + `or_default` + `HashSet::extend`).  The context query
`Context::statement_idxs_for_breakpoint` is not part of this snapshot (only
this caller is); it is passed in abstractly as `resolve`. -/
def verify_and_set_breakpoint (resolve : String → Nat → Option (List Nat))
    (bps : String → List Nat) (source : String) (line : Nat) :
    (String → List Nat) × Bool :=
  match resolve source line with
  | some idxs => (fun s => if s = source then bps source ++ idxs else bps s, true)
  | none => (bps, false)

/-- `State::clear_breakpoints` (src/debugger/state.rs lines 83-85): remove
the source's entry. -/
def clear_breakpoints (bps : String → List Nat) (source : String) :
    String → List Nat :=
  fun s => if s = source then [] else bps s

/-- Modelled from the spec: the `SetBreakpoints` handler arm wiring the two
`State` operations above is not part of this snapshot (the `handler.rs`
present is an earlier state whose arm verifies every line and never touches
the table).  Per spec §4.3/§6, the handler replaces the file's breakpoint
set wholesale: it clears the file's entries first, then verifies and
records each requested line in order, returning the per-line verified
flags. -/
def handleSetBreakpoints (resolve : String → Nat → Option (List Nat))
    (bps : String → List Nat) (source : String) (lines : List Nat) :
    (String → List Nat) × List Bool :=
  lines.foldl
    (fun acc line =>
      let r := verify_and_set_breakpoint resolve acc.1 source line
      (r.1, acc.2 ++ [r.2]))
    (clear_breakpoints bps source, [])

/-! ## Request dispatch table (src/debugger/handler.rs) -/

/-- The DAP commands of `dap::prelude::Command`, as matched by
`CairoDebugger::handle_request` (src/debugger/handler.rs).  A payload is
carried only where a handler arm reads it (`SetBreakpoints`); the remaining
payloads are never inspected by the dispatch table and are omitted. -/
inductive Command
  | breakpointLocations
  | cancel
  | completions
  | dataBreakpointInfo
  | disassemble
  | goto
  | exceptionInfo
  | gotoTargets
  | loadedSources
  | modules
  | readMemory
  | restartFrame
  | setDataBreakpoints
  | restart
  | setExceptionBreakpoints
  | terminateThreads
  | terminate
  | stepInTargets
  | setVariable
  | setInstructionBreakpoints
  | setExpression
  | writeMemory
  | attach
  | reverseContinue
  | stepBack
  | setFunctionBreakpoints
  | initializeReq
  | launch
  | configurationDone
  | pause
  | continueCmd
  | setBreakpoints (source : String) (lines : List Nat)
  | threads
  | stackTrace
  | scopes
  | variables
  | next
  | stepIn
  | stepOut
  | source
  | evaluate
  | disconnect
deriving DecidableEq

/-- The events a handler or the teardown can emit. -/
inductive EventKind
  | initializedEv
  | stoppedEv
  | terminatedEv
  | exitedEv
deriving DecidableEq

/-- A message enqueued on the outbound channel (`dap::base_message::Sendable`
without reverse requests): a response — successful (`send_success`) or
failed (`send_error`) — or an event. -/
inductive Sendable
  | response (success : Bool)
  | event (e : EventKind)
deriving DecidableEq

/-- The mutation a handler arm performs on `State`
(`stop_execution` / `resume_execution` / `set_configuration_done`). -/
inductive StateEffect
  | noEffect
  | stopExecution
  | resumeExecution
  | setConfigurationDone
deriving DecidableEq

/-- Result of one `handle_request` dispatch: the messages enqueued on the
outbound channel in order, together with how the call returns —
`ok` (returns `Ok(())` after applying a state effect), `rejected` (sends the
failed response, then `bail!` returns a session-fatal `Err`), or
`unimplemented` (a `todo!()` placeholder arm: panics, sending nothing). -/
inductive Outcome
  | ok (sends : List Sendable) (effect : StateEffect)
  | rejected (sends : List Sendable)
  | unimplemented
deriving DecidableEq

/-- `CairoDebugger::handle_request` (src/debugger/handler.rs lines 14-222),
arm by arm. -/
def handle_request : Command → Outcome
  | Command.breakpointLocations => Outcome.rejected [Sendable.response false]
  | Command.cancel => Outcome.rejected [Sendable.response false]
  | Command.completions => Outcome.rejected [Sendable.response false]
  | Command.dataBreakpointInfo => Outcome.rejected [Sendable.response false]
  | Command.disassemble => Outcome.rejected [Sendable.response false]
  | Command.goto => Outcome.rejected [Sendable.response false]
  | Command.exceptionInfo => Outcome.rejected [Sendable.response false]
  | Command.gotoTargets => Outcome.rejected [Sendable.response false]
  | Command.loadedSources => Outcome.rejected [Sendable.response false]
  | Command.modules => Outcome.rejected [Sendable.response false]
  | Command.readMemory => Outcome.rejected [Sendable.response false]
  | Command.restartFrame => Outcome.rejected [Sendable.response false]
  | Command.setDataBreakpoints => Outcome.rejected [Sendable.response false]
  | Command.restart => Outcome.rejected [Sendable.response false]
  | Command.setExceptionBreakpoints => Outcome.rejected [Sendable.response false]
  | Command.terminateThreads => Outcome.rejected [Sendable.response false]
  | Command.terminate => Outcome.rejected [Sendable.response false]
  | Command.stepInTargets => Outcome.rejected [Sendable.response false]
  | Command.setVariable => Outcome.rejected [Sendable.response false]
  | Command.setInstructionBreakpoints => Outcome.rejected [Sendable.response false]
  | Command.setExpression => Outcome.rejected [Sendable.response false]
  | Command.writeMemory => Outcome.rejected [Sendable.response false]
  | Command.attach => Outcome.rejected [Sendable.response false]
  | Command.reverseContinue => Outcome.rejected [Sendable.response false]
  | Command.stepBack => Outcome.rejected [Sendable.response false]
  | Command.setFunctionBreakpoints => Outcome.rejected [Sendable.response false]
  | Command.initializeReq =>
    Outcome.ok [Sendable.response true, Sendable.event EventKind.initializedEv]
      StateEffect.noEffect
  | Command.launch => Outcome.ok [Sendable.response true] StateEffect.noEffect
  | Command.configurationDone =>
    Outcome.ok [Sendable.response true] StateEffect.setConfigurationDone
  | Command.pause =>
    Outcome.ok [Sendable.event EventKind.stoppedEv, Sendable.response true]
      StateEffect.stopExecution
  | Command.continueCmd =>
    Outcome.ok [Sendable.response true] StateEffect.resumeExecution
  | Command.setBreakpoints _ _ =>
    Outcome.ok [Sendable.response true] StateEffect.noEffect
  | Command.threads => Outcome.ok [Sendable.response true] StateEffect.noEffect
  | Command.stackTrace => Outcome.ok [Sendable.response true] StateEffect.noEffect
  | Command.scopes => Outcome.ok [Sendable.response true] StateEffect.noEffect
  | Command.variables => Outcome.ok [Sendable.response true] StateEffect.noEffect
  | Command.next => Outcome.unimplemented
  | Command.stepIn => Outcome.unimplemented
  | Command.stepOut => Outcome.unimplemented
  | Command.source => Outcome.unimplemented
  | Command.evaluate => Outcome.ok [Sendable.response true] StateEffect.noEffect
  | Command.disconnect => Outcome.unimplemented

/-- The commands of claim C8's rejected set. -/
def isRejectedCommand : Command → Bool
  | Command.breakpointLocations => true
  | Command.cancel => true
  | Command.completions => true
  | Command.dataBreakpointInfo => true
  | Command.disassemble => true
  | Command.goto => true
  | Command.exceptionInfo => true
  | Command.gotoTargets => true
  | Command.loadedSources => true
  | Command.modules => true
  | Command.readMemory => true
  | Command.restartFrame => true
  | Command.setDataBreakpoints => true
  | Command.restart => true
  | Command.setExceptionBreakpoints => true
  | Command.terminateThreads => true
  | Command.terminate => true
  | Command.stepInTargets => true
  | Command.setVariable => true
  | Command.setInstructionBreakpoints => true
  | Command.setExpression => true
  | Command.writeMemory => true
  | Command.attach => true
  | Command.reverseContinue => true
  | Command.stepBack => true
  | Command.setFunctionBreakpoints => true
  | _ => false

/-- The messages a dispatch enqueued (a panicking `todo!()` arm enqueues
nothing). -/
def Outcome.sendsOf : Outcome → List Sendable
  | Outcome.ok s _ => s
  | Outcome.rejected s => s
  | Outcome.unimplemented => []

/-- Whether the dispatch returned the session-fatal `Err` of a rejected
command. -/
def Outcome.isRejectedOutcome : Outcome → Bool
  | Outcome.rejected _ => true
  | _ => false

/-- Number of responses among enqueued messages. -/
def responseCount (l : List Sendable) : Nat :=
  (l.filter fun s => match s with
    | Sendable.response _ => true
    | _ => false).length

/-- Whether the dispatch returned `Ok(())`. -/
def Outcome.isOkOutcome : Outcome → Bool
  | Outcome.ok _ _ => true
  | _ => false

/-- The state effect of a normally-completing dispatch (`noEffect` for the
error and panic outcomes, which never reach a state mutation). -/
def Outcome.effectOf : Outcome → StateEffect
  | Outcome.ok _ eff => eff
  | _ => StateEffect.noEffect

/-! ## Per-step synchronization loop (src/debugger.rs lines 45-64) -/

/-- The `execution_stopped` flag after a handler's state effect. -/
def applyEffect (stopped : Bool) : StateEffect → Bool
  | StateEffect.stopExecution => true
  | StateEffect.resumeExecution => false
  | _ => stopped

/-- A receive on the inbound channel: `try_next_request` (non-blocking
`try_recv`) or `next_request` (blocking `recv`). -/
inductive RecvKind
  | nonblockingRecv
  | blockingRecv
deriving DecidableEq

/-- Which loop is receiving: `sync_with_vm`'s own loop (`running`) or
`process_until_resume` (`stoppedBlocking`). -/
inductive SyncMode
  | running
  | stoppedBlocking
deriving DecidableEq

/-- Trace of one `sync_with_vm` call: the requests dispatched in order, the
receives performed in order, and whether a handler aborted the session
(`bail!` error or `todo!()` panic propagated through `?`). -/
structure SyncResult where
  processed : List Command
  recvs : List RecvKind
  fatal : Bool
deriving DecidableEq

/-- `CairoDebugger::sync_with_vm` together with `process_until_resume`
(src/debugger.rs lines 45-64), run against the list of requests currently
queued on the inbound channel.  In `running` mode each iteration performs a
non-blocking `try_next_request`, exiting when it finds the queue empty;
after processing a request, if execution is stopped, control moves to
`process_until_resume`, whose receives block.  When the queue is exhausted
while blocked, the real code waits indefinitely for the network; the model
records that blocking receive and stops there.  A handler `Err` or panic
ends the call (`fatal`) without touching the rest of the queue. -/
def recvKindFor : SyncMode → RecvKind
  | SyncMode.running => RecvKind.nonblockingRecv
  | SyncMode.stoppedBlocking => RecvKind.blockingRecv

/-- The synchronization loop itself; see the comment above `recvKindFor`. -/
def syncAux : SyncMode → Bool → List Command → SyncResult
  | mode, _, [] =>
    { processed := [], recvs := [recvKindFor mode], fatal := false }
  | mode, stopped, c :: rest =>
    (match handle_request c with
     | Outcome.ok _ eff =>
       let stopped' := applyEffect stopped eff
       let mode' := if stopped' then SyncMode.stoppedBlocking else SyncMode.running
       let r := syncAux mode' stopped' rest
       { processed := c :: r.processed
         recvs := recvKindFor mode :: r.recvs
         fatal := r.fatal }
     | _ =>
       { processed := [c], recvs := [recvKindFor mode], fatal := true })

/-- `sync_with_vm` entered from the VM pre-step hook with the execution not
stopped (the hook only runs while the VM is stepping). -/
def sync_with_vm (stopped : Bool) (queue : List Command) : SyncResult :=
  syncAux SyncMode.running stopped queue

/-! ## Session teardown (src/debugger.rs lines 77-88) -/

/-- `impl Drop for CairoDebugger`: send the `Terminated` event, then the
`Exited` event, on the outbound channel.  `sendFails e = true` models
`send_event` returning `Err` for that event (channel disconnected): the
event is then not enqueued and the failure is logged with `error!`; the
drop handler continues either way and never panics.  Returns the list of
events actually enqueued, in order, and the log messages. -/
def dropTeardown (sendFails : EventKind → Bool) : List EventKind × List String :=
  let first :=
    if sendFails EventKind.terminatedEv then
      (([] : List EventKind), ["Sending terminated event failed"])
    else ([EventKind.terminatedEv], ([] : List String))
  let second :=
    if sendFails EventKind.exitedEv then
      (([] : List EventKind), ["Sending exit event failed"])
    else ([EventKind.exitedEv], ([] : List String))
  (first.1 ++ second.1, first.2 ++ second.2)

/-! ## Stack frame rendering (src/debugger/call_stack.rs lines 64-168) -/

/-- `MIN_OBJECT_REFERENCE` is imported from `crate::debugger`, whose
defining file state is not part of this snapshot.  Modelled from the spec
and the object-reference scheme documented on `CallStack.call_ids` (frame
reference `1 + 2*index`, variables reference `2 + 2*index`): the minimum
object reference is 1. -/
def MIN_OBJECT_REFERENCE : Int := 1

/-- The fields of `dap::types::StackFrame` that `build_stack_frame` and
`unknown_frame` populate with claim-relevant data. -/
structure StackFrame where
  id : Int
  name : String
  line : Int
  column : Int
deriving DecidableEq

/-- The debug-info queries `get_frames` makes:
`Context::code_locations_for_statement_idx` and
`Context::function_names_for_statement_idx` (absent from this snapshot's
`context.rs`, which still carries their earlier single-location versions;
both are annotation lookups returning `None` when the statement has no
annotation). -/
structure FrameCtx where
  code_locations : Nat → Option (List Loc)
  function_names : Nat → Option (List String)

/-- `unknown_frame` (src/debugger/call_stack.rs lines 156-165). -/
def unknown_frame : StackFrame :=
  { id := 1, name := "Unknown", line := 1, column := 1 }

/-- `CallStack::build_stack_frame` (src/debugger/call_stack.rs lines
118-153): the id is `MIN_OBJECT_REFERENCE + 2 * self.call_ids.len()`; line
and column are the 0-indexed annotation values plus 1. -/
def build_stack_frame (cs : CallStack) (loc : Loc) (function_name : String) :
    StackFrame :=
  { id := MIN_OBJECT_REFERENCE + 2 * (cs.call_ids.length : Int)
    name := function_name
    line := (loc.line : Int) + 1
    column := (loc.col : Int) + 1 }

/-- The `default_function_names` fallback of `build_stack_frames`. -/
def default_function_names : List String := ["test"]

/-- `CallStack::build_stack_frames` (src/debugger/call_stack.rs lines
100-116): an unknown frame when the statement has no code locations;
otherwise one frame per `(code location, function name)` pair (`zip`
truncates to the shorter list). -/
def build_stack_frames (cs : CallStack) (ctx : FrameCtx) (statement_idx : Nat) :
    List StackFrame :=
  match ctx.code_locations statement_idx with
  | none => [unknown_frame]
  | some locs =>
    let names := (ctx.function_names statement_idx).getD default_function_names
    (locs.zip names).map fun p => build_stack_frame cs p.1 p.2

/-- `CallStack::get_frames` (src/debugger/call_stack.rs lines 64-74): the
stored call statements followed by the current statement, reversed to
innermost-first, each expanded by `build_stack_frames`. -/
def get_frames (cs : CallStack) (statement_idx : Nat) (ctx : FrameCtx) :
    List StackFrame :=
  ((cs.call_ids ++ [statement_idx]).reverse).flatMap (build_stack_frames cs ctx)

/-! ## Helper lemmas -/

theorem takeWhile_length_le (p : Nat → Bool) (l : List Nat) :
    (l.takeWhile p).length ≤ l.length := by
  induction l with
  | nil => simp
  | cons x xs ih =>
    by_cases h : p x
    · simpa [List.takeWhile_cons, h] using Nat.succ_le_succ ih
    · simp [List.takeWhile_cons, h]

theorem takeWhile_getD_sat (p : Nat → Bool) (l : List Nat) (k : Nat)
    (hk : k < (l.takeWhile p).length) : p (l.getD k 0) = true := by
  induction l generalizing k with
  | nil => simp at hk
  | cons x xs ih =>
    by_cases h : p x
    · cases k with
      | zero => simpa using h
      | succ k' =>
        simp [List.takeWhile_cons, h] at hk
        exact ih k' (by omega)
    · simp [List.takeWhile_cons, h] at hk

theorem takeWhile_getD_fail (p : Nat → Bool) (l : List Nat)
    (hk : (l.takeWhile p).length < l.length) :
    p (l.getD (l.takeWhile p).length 0) = false := by
  induction l with
  | nil => simp at hk
  | cons x xs ih =>
    by_cases h : p x
    · simp only [List.takeWhile_cons, h, List.length_cons] at hk ⊢
      simpa using ih (Nat.lt_of_succ_lt_succ hk)
    · simp [List.takeWhile_cons, h]

theorem sorted_getD_mono (l : List Nat) (hs : l.Sorted (· ≤ ·)) (i k : Nat)
    (hik : i ≤ k) (hk : k < l.length) : l.getD i 0 ≤ l.getD k 0 := by
  rcases Nat.eq_or_lt_of_le hik with rfl | hlt
  · exact Nat.le_refl _
  · have hi : i < l.length := Nat.lt_trans hlt hk
    have := List.pairwise_iff_get.mp hs ⟨i, hi⟩ ⟨k, hk⟩ hlt
    simpa [List.getD_eq_getElem, hi, hk] using this

theorem min2_cases (a b : Nat × Nat) : min2 a b = a ∨ min2 a b = b := by
  unfold min2
  split
  · exact Or.inr rfl
  · exact Or.inl rfl

theorem lexLe_refl (a : Nat × Nat) : lexLe a a := Or.inr ⟨rfl, Nat.le_refl _⟩

theorem lexLe_trans {a b c : Nat × Nat} (h1 : lexLe a b) (h2 : lexLe b c) :
    lexLe a c := by
  unfold lexLe at *
  omega

theorem lexLe_of_not_lexLe {a b : Nat × Nat} (h : ¬ lexLe a b) : lexLe b a := by
  unfold lexLe at *
  omega

theorem min2_eq_left {a b : Nat × Nat} (h : lexLe a b) : min2 a b = a := by
  unfold lexLe at h
  unfold min2
  split
  · exfalso; omega
  · rfl

theorem min2_eq_right {a b : Nat × Nat} (h : ¬ lexLe a b) : min2 a b = b := by
  unfold lexLe at h
  unfold min2
  split
  · rfl
  · exfalso; omega

theorem min2_comm (a b : Nat × Nat) : min2 a b = min2 b a := by
  unfold min2
  split <;> split
  · exfalso; omega
  · rfl
  · rfl
  · exact Prod.ext (by omega) (by omega)

theorem min2_right_comm (x a b : Nat × Nat) :
    min2 (min2 x a) b = min2 (min2 x b) a := by
  by_cases hxa : lexLe x a <;> by_cases hxb : lexLe x b
  · rw [min2_eq_left hxa, min2_eq_left hxb, min2_eq_left hxa]
  · rw [min2_eq_left hxa, min2_eq_right hxb,
      min2_eq_left (lexLe_trans (lexLe_of_not_lexLe hxb) hxa)]
  · rw [min2_eq_left hxb, min2_eq_right hxa,
      min2_eq_left (lexLe_trans (lexLe_of_not_lexLe hxa) hxb)]
  · rw [min2_eq_right hxa, min2_eq_right hxb]
    exact min2_comm a b

instance : RightCommutative minStep := by
  constructor
  intro acc a b
  cases acc with
  | none => simp [minStep, min2_comm a b]
  | some x => simp [minStep, min2_right_comm x a b]

theorem lexLe_min2_left (a b : Nat × Nat) : lexLe (min2 a b) a := by
  unfold min2
  split
  · rename_i h
    unfold lexLe
    omega
  · exact lexLe_refl a

theorem lexLe_min2_right (a b : Nat × Nat) : lexLe (min2 a b) b := by
  unfold min2
  split
  · exact lexLe_refl b
  · rename_i h
    unfold lexLe
    omega

theorem rightmost_of_takeWhile (offsets : List Nat) (pc : Nat)
    (hs : offsets.Sorted (· ≤ ·)) (hlen : 0 < offsets.length)
    (hle : offsets.getD 0 0 ≤ pc) :
    IsRightmostLe offsets pc
      ((offsets.takeWhile fun offset => decide (offset ≤ pc)).length - 1) := by
  set p : Nat → Bool := fun offset => decide (offset ≤ pc) with hp
  set t := (offsets.takeWhile p).length with ht
  have htle : t ≤ offsets.length := takeWhile_length_le p offsets
  have ht1 : 1 ≤ t := by
    by_contra hcon
    have hfail := takeWhile_getD_fail p offsets (by omega)
    have ht0 : (offsets.takeWhile p).length = 0 := by omega
    rw [ht0] at hfail
    simp only [hp, decide_eq_false_iff_not] at hfail
    exact hfail hle
  refine ⟨by omega, ?_, ?_⟩
  · have hsat := takeWhile_getD_sat p offsets (t - 1) (by omega)
    simpa [hp] using hsat
  · intro k hk hkle
    by_contra hcon
    have hfail := takeWhile_getD_fail p offsets (by omega)
    simp only [hp, decide_eq_false_iff_not] at hfail
    exact hfail (le_trans (sorted_getD_mono offsets hs t k (by omega) hk) hkle)

theorem insertLinePc_apply (m : String × Nat → Option (Nat × Nat))
    (key : String × Nat) (col pc : Nat) (k : String × Nat) :
    insertLinePc m key col pc k =
      if k = key then minStep (m key) (col, pc) else m k := by
  unfold insertLinePc minStep
  by_cases hk : k = key
  · rw [if_pos hk]
  · rw [if_neg hk]

theorem insertLinePc_foldl_lookup (pc0 : Nat) (locs : List Loc) :
    ∀ (m : String × Nat → Option (Nat × Nat)) (k : String × Nat),
      (locs.foldl (fun m loc => insertLinePc m (loc.file, loc.line) loc.col pc0) m) k =
        (locs.filterMap fun loc =>
          if (loc.file, loc.line) = k then some (loc.col, pc0) else none).foldl
          minStep (m k) := by
  induction locs with
  | nil =>
    intro m k
    rfl
  | cons loc rest ih =>
    intro m k
    rw [List.foldl_cons, ih, List.filterMap_cons]
    by_cases hk : (loc.file, loc.line) = k
    · rw [if_pos hk, List.foldl_cons]
      congr 1
      rw [insertLinePc_apply, if_pos hk.symm, hk]
    · rw [if_neg hk]
      congr 1
      rw [insertLinePc_apply, if_neg (Ne.symm hk)]

theorem candidatesFor_cons (statement_to_pc : List Nat) (a : Nat × List Loc)
    (rest : List (Nat × List Loc)) (k : String × Nat) :
    candidatesFor statement_to_pc (a :: rest) k =
      (if isHittable statement_to_pc a.1 then
        a.2.filterMap fun loc =>
          if (loc.file, loc.line) = k then some (loc.col, stmtPc statement_to_pc a.1)
          else none
      else []) ++ candidatesFor statement_to_pc rest k := by
  unfold candidatesFor
  rw [List.flatMap_cons]

theorem build_foldl_lookup (statement_to_pc : List Nat)
    (annots : List (Nat × List Loc)) :
    ∀ (m : String × Nat → Option (Nat × Nat)) (k : String × Nat),
      (annots.foldl (insertStatement statement_to_pc) m) k =
        (candidatesFor statement_to_pc annots k).foldl minStep (m k) := by
  induction annots with
  | nil =>
    intro m k
    rfl
  | cons a rest ih =>
    intro m k
    rw [List.foldl_cons, ih, candidatesFor_cons, List.foldl_append]
    congr 1
    by_cases hh : isHittable statement_to_pc a.1
    · rw [if_pos hh]
      unfold insertStatement
      rw [if_pos hh]
      exact insertLinePc_foldl_lookup _ _ _ _
    · rw [if_neg hh]
      unfold insertStatement
      rw [if_neg hh]
      rfl

theorem foldl_minStep_some (l : List (Nat × Nat)) :
    ∀ a : Nat × Nat, ∃ mn, l.foldl minStep (some a) = some mn ∧
      (mn = a ∨ mn ∈ l) ∧ lexLe mn a ∧ ∀ c ∈ l, lexLe mn c := by
  induction l with
  | nil =>
    intro a
    exact ⟨a, rfl, Or.inl rfl, lexLe_refl a, by simp⟩
  | cons b rest ih =>
    intro a
    rcases ih (min2 a b) with ⟨mn, heq, hmem, hle, hall⟩
    refine ⟨mn, heq, ?_, ?_, ?_⟩
    · rcases hmem with rfl | hmem
      · rcases min2_cases a b with h | h
        · exact Or.inl h
        · exact Or.inr (by rw [h]; exact List.mem_cons_self b rest)
      · exact Or.inr (List.mem_cons_of_mem _ hmem)
    · exact lexLe_trans hle (lexLe_min2_left a b)
    · intro c hc
      rcases List.mem_cons.mp hc with hcb | hc
      · rw [hcb]
        exact lexLe_trans hle (lexLe_min2_right a b)
      · exact hall c hc

theorem minLex?_spec (l : List (Nat × Nat)) :
    (l = [] ∧ minLex? l = none) ∨
      ∃ mn, minLex? l = some mn ∧ mn ∈ l ∧ ∀ c ∈ l, lexLe mn c := by
  cases l with
  | nil => exact Or.inl ⟨rfl, rfl⟩
  | cons a rest =>
    rcases foldl_minStep_some rest a with ⟨mn, heq, hmem, hle, hall⟩
    refine Or.inr ⟨mn, heq, ?_, ?_⟩
    · rcases hmem with hma | hmem
      · rw [hma]
        exact List.mem_cons_self a rest
      · exact List.mem_cons_of_mem _ hmem
    · intro c hc
      rcases List.mem_cons.mp hc with rfl | hc
      · exact hle
      · exact hall c hc

theorem candidatesFor_mem (statement_to_pc : List Nat)
    (annots : List (Nat × List Loc)) (k : String × Nat) (c : Nat × Nat)
    (hc : c ∈ candidatesFor statement_to_pc annots k) :
    ∃ e ∈ annots, isHittable statement_to_pc e.1 = true ∧
      c.2 = stmtPc statement_to_pc e.1 := by
  unfold candidatesFor at hc
  rcases List.mem_flatMap.mp hc with ⟨e, he, hce⟩
  by_cases hh : isHittable statement_to_pc e.1
  · rw [if_pos hh] at hce
    rcases List.mem_filterMap.mp hce with ⟨loc, _, hloc⟩
    refine ⟨e, he, hh, ?_⟩
    by_cases hkey : (loc.file, loc.line) = k
    · rw [if_pos hkey] at hloc
      cases Option.some.inj hloc
      rfl
    · rw [if_neg hkey] at hloc
      cases hloc
  · rw [if_neg hh] at hce
    cases hce

/-! ## Claim theorems -/

/-- C1 (counterexample): taking the claimed observed statement sequence
`[call@3, 3, 7, return@7, 10]` literally — statement indices
`[3, 3, 7, 7, 10]` with statement 3 a call and statement 7 a return — and
running `CallStack.update` from the empty stack does not yield the claimed
depth sequence `[0,0,1,1,0]`: the depths after each update are
`[0,1,2,1,0]` (and sampled on arrival instead they are `[0,0,1,2,1]`),
because the repeated call and return indices each defer a second push and
pop. -/
theorem C1_depth_sequence_counterexample :
    depthsAfterUpdate CallStack.empty ctxCallAt3RetAt7 [3, 3, 7, 7, 10] =
        [0, 1, 2, 1, 0] ∧
    depthsAfterUpdate CallStack.empty ctxCallAt3RetAt7 [3, 3, 7, 7, 10] ≠
        [0, 0, 1, 1, 0] ∧
    depthsOnArrival CallStack.empty ctxCallAt3RetAt7 [3, 3, 7, 7, 10] =
        [0, 0, 1, 2, 1] ∧
    depthsOnArrival CallStack.empty ctxCallAt3RetAt7 [3, 3, 7, 7, 10] ≠
        [0, 0, 1, 1, 0] := by
  decide

/-- C1 (amended): for every statement classification in which statement 3 is
a call, statement 7 is a return, and statements 4, 8 and 10 are plain,
running `CallStack.update` from the empty stack over the observed sequence
`[3, 4, 7, 8, 10]` yields the depth sequence `[0,0,1,1,0]` sampled on
arrival at each statement (equivalently `[0,1,1,0,0]` sampled after each
update): the push and pop are observed exactly one update after the
triggering call/return statement.  Moreover no push or pop ever happens on
the same update as the triggering statement: the depth after any update is
determined by the previously deferred action alone, and the new statement
only sets the deferred action. -/
theorem C1_call_stack_update_deferred (ctx : Nat → StmtKind)
    (h3 : ctx 3 = StmtKind.call) (h4 : ctx 4 = StmtKind.other)
    (h7 : ctx 7 = StmtKind.ret) (h8 : ctx 8 = StmtKind.other)
    (h10 : ctx 10 = StmtKind.other) :
    depthsOnArrival CallStack.empty ctx [3, 4, 7, 8, 10] = [0, 0, 1, 1, 0] ∧
    depthsAfterUpdate CallStack.empty ctx [3, 4, 7, 8, 10] = [0, 1, 1, 0, 0] ∧
    (∀ (cs : CallStack) (s : Nat),
      (cs.update s ctx).depth = cs.applyPendingAction.length ∧
      (cs.update s ctx).action_on_new_statement = actionForStatement ctx s) := by
  refine ⟨?_, ?_, fun cs s => ⟨rfl, rfl⟩⟩
  · simp [depthsOnArrival, CallStack.update, CallStack.depth, CallStack.empty,
      CallStack.applyPendingAction, actionForStatement, h3, h4, h7, h8, h10]
  · simp [depthsAfterUpdate, CallStack.update, CallStack.depth, CallStack.empty,
      CallStack.applyPendingAction, actionForStatement, h3, h4, h7, h8, h10]

/-- Witness for C1: the amended statement evaluated at the concrete
classification with a call at 3 and a return at 7. -/
theorem C1_call_stack_update_deferred_witness :
    depthsOnArrival CallStack.empty ctxCallAt3RetAt7 [3, 4, 7, 8, 10] =
      [0, 0, 1, 1, 0] :=
  (C1_call_stack_update_deferred ctxCallAt3RetAt7 (by decide) (by decide)
    (by decide) (by decide) (by decide)).1

/-- C2 (counterexample): for a pc smaller than every offset the claim
fails: on the sorted offset table `[5]` and `pc = 0`,
`statement_idx_for_pc` returns index 0 (because of `saturating_sub`), yet
index 0's entry is not ≤ 0, so the returned index is not "the rightmost
index whose entry is ≤ pc" — no such index exists. -/
theorem C2_statement_idx_for_pc_counterexample :
    statement_idx_for_pc [5] 0 = 0 ∧
    ¬ IsRightmostLe [5] 0 (statement_idx_for_pc [5] 0) := by
  decide

/-- C2 (amended): on a monotonically non-decreasing offset table,
`statement_idx_for_pc pc` returns the rightmost index whose entry is ≤ `pc`
for every `pc` for which such an index exists (the table is non-empty and
its first entry is ≤ `pc`); in particular the round trip holds: for every
statement index `i` in range, `statement_idx_for_pc (statement_to_pc[i])`
is the greatest statement index whose start offset is
≤ `statement_to_pc[i]`. -/
theorem C2_statement_idx_for_pc_rightmost (offsets : List Nat)
    (hs : offsets.Sorted (· ≤ ·)) :
    (∀ pc, 0 < offsets.length → offsets.getD 0 0 ≤ pc →
        IsRightmostLe offsets pc (statement_idx_for_pc offsets pc)) ∧
    (∀ i, i < offsets.length →
        IsRightmostLe offsets (offsets.getD i 0)
          (statement_idx_for_pc offsets (offsets.getD i 0))) := by
  have main : ∀ pc, 0 < offsets.length → offsets.getD 0 0 ≤ pc →
      IsRightmostLe offsets pc (statement_idx_for_pc offsets pc) := by
    intro pc hlen hle
    exact rightmost_of_takeWhile offsets pc hs hlen hle
  refine ⟨main, ?_⟩
  intro i hi
  exact main (offsets.getD i 0) (by omega)
    (sorted_getD_mono offsets hs 0 i (Nat.zero_le i) hi)

/-- Witness for C2: the amended statement evaluated on the offset table
`[0, 4, 4, 7]` at `pc = 5`, where the rightmost entry ≤ 5 is at index 2. -/
theorem C2_statement_idx_for_pc_rightmost_witness :
    IsRightmostLe [0, 4, 4, 7] 5 (statement_idx_for_pc [0, 4, 4, 7] 5) ∧
    statement_idx_for_pc [0, 4, 4, 7] 5 = 2 :=
  ⟨(C2_statement_idx_for_pc_rightmost [0, 4, 4, 7] (by decide)).1 5 (by decide)
      (by decide),
    by decide⟩

/-- C3: every pc recorded in the line → pc breakpoint index comes from a
hittable statement — one whose start CASM offset differs from the next
statement's start offset (the last statement counting as hittable) — so
`get_pc_for_line` never resolves a breakpoint to a non-hittable statement.
The hypothesis is the validity of the annotation indices, which the
source's `expect` enforces by panicking. -/
theorem C3_breakpoint_index_only_hittable (statement_to_pc : List Nat)
    (annots : List (Nat × List Loc))
    (hvalid : ∀ e ∈ annots, e.1 < statement_to_pc.length)
    (source : String) (line : Nat) (pc : Nat)
    (hres : get_pc_for_line statement_to_pc annots source line = some pc) :
    ∃ idx, idx < statement_to_pc.length ∧
      isHittable statement_to_pc idx = true ∧
      stmtPc statement_to_pc idx = pc := by
  unfold get_pc_for_line build_file_locations_map at hres
  rw [build_foldl_lookup statement_to_pc annots (fun _ => none) (source, line)]
    at hres
  rcases minLex?_spec (candidatesFor statement_to_pc annots (source, line)) with
    ⟨_, hnone⟩ | ⟨mn, heq, hmem, _⟩
  · unfold minLex? at hnone
    rw [hnone] at hres
    cases hres
  · unfold minLex? at heq
    rw [heq] at hres
    simp only [Option.map_some'] at hres
    rcases candidatesFor_mem statement_to_pc annots (source, line) mn hmem with
      ⟨e, he, hh, h2⟩
    refine ⟨e.1, hvalid e he, hh, ?_⟩
    rw [← h2]
    exact Option.some.inj hres

/-- Witness for C3: on the offset table `[0, 1, 1, 2]` statement 1 is
non-hittable; the annotations put statement 0 on line 5 and statement 1 on
line 6 of file "a"; line 5 resolves to pc 0, contributed by the hittable
statement 0. -/
theorem C3_breakpoint_index_only_hittable_witness :
    ∃ idx, idx < ([0, 1, 1, 2] : List Nat).length ∧
      isHittable [0, 1, 1, 2] idx = true ∧
      stmtPc [0, 1, 1, 2] idx = 0 :=
  C3_breakpoint_index_only_hittable [0, 1, 1, 2]
    [(0, [Loc.mk "a" 5 2]), (1, [Loc.mk "a" 6 0])]
    (by decide) "a" 5 0 (by decide)

/-- C4: for every `(file, line)` key, the breakpoint index built by
`build_file_locations_map` holds exactly the pc of the candidate whose
`(column, pc)` pair is lexicographically least among the statements mapping
to that line — i.e. the smallest column, ties broken by the smaller pc —
and the result is the same for any two processing orders of the annotation
entries (the source iterates a `HashMap` in unspecified order). -/
theorem C4_line_resolution_lex_min (statement_to_pc : List Nat)
    (annots annots2 : List (Nat × List Loc)) (hperm : annots.Perm annots2)
    (source : String) (line : Nat) :
    (get_pc_for_line statement_to_pc annots source line =
        (minLex? (candidatesFor statement_to_pc annots (source, line))).map
          Prod.snd) ∧
    (∀ mn, minLex? (candidatesFor statement_to_pc annots (source, line)) =
          some mn →
        mn ∈ candidatesFor statement_to_pc annots (source, line) ∧
        ∀ c ∈ candidatesFor statement_to_pc annots (source, line), lexLe mn c) ∧
    get_pc_for_line statement_to_pc annots source line =
      get_pc_for_line statement_to_pc annots2 source line := by
  have hchar : ∀ (l : List (Nat × List Loc)),
      get_pc_for_line statement_to_pc l source line =
        (minLex? (candidatesFor statement_to_pc l (source, line))).map Prod.snd := by
    intro l
    unfold get_pc_for_line build_file_locations_map
    rw [build_foldl_lookup statement_to_pc l (fun _ => none) (source, line)]
    rfl
  refine ⟨hchar annots, ?_, ?_⟩
  · intro mn hmn
    rcases minLex?_spec (candidatesFor statement_to_pc annots (source, line)) with
      ⟨_, hnone⟩ | ⟨mn', heq, hmem, hall⟩
    · rw [hnone] at hmn
      cases hmn
    · rw [heq] at hmn
      cases Option.some.inj hmn
      exact ⟨hmem, hall⟩
  · rw [hchar annots, hchar annots2]
    have hpermC : (candidatesFor statement_to_pc annots (source, line)).Perm
        (candidatesFor statement_to_pc annots2 (source, line)) :=
      hperm.flatMap_right _
    unfold minLex?
    rw [hpermC.foldl_eq none]

/-- Witness for C4: two statements map to line 5 of file "a", at columns 4
(statement 0, pc 0) and 2 (statement 1, pc 1); the line resolves to the
column-2 statement's pc in either processing order. -/
theorem C4_line_resolution_lex_min_witness :
    get_pc_for_line [0, 1, 2] [(0, [Loc.mk "a" 5 4]), (1, [Loc.mk "a" 5 2])]
        "a" 5 =
      get_pc_for_line [0, 1, 2] [(1, [Loc.mk "a" 5 2]), (0, [Loc.mk "a" 5 4])]
        "a" 5 ∧
    get_pc_for_line [0, 1, 2] [(0, [Loc.mk "a" 5 4]), (1, [Loc.mk "a" 5 2])]
        "a" 5 = some 1 :=
  ⟨(C4_line_resolution_lex_min [0, 1, 2]
      [(0, [Loc.mk "a" 5 4]), (1, [Loc.mk "a" 5 2])]
      [(1, [Loc.mk "a" 5 2]), (0, [Loc.mk "a" 5 4])]
      (by decide) "a" 5).2.2,
    by decide⟩

theorem setBreakpoints_loop (resolve : String → Nat → Option (List Nat))
    (source : String) :
    ∀ (lines : List Nat) (bps : String → List Nat) (acc : List Bool),
      lines.foldl
          (fun acc line =>
            let r := verify_and_set_breakpoint resolve acc.1 source line
            (r.1, acc.2 ++ [r.2]))
          (bps, acc) =
        (fun s =>
          if s = source then
            bps source ++ lines.flatMap fun ln => (resolve source ln).getD []
          else bps s,
         acc ++ lines.map fun ln => (resolve source ln).isSome) := by
  intro lines
  induction lines with
  | nil =>
    intro bps acc
    simp only [List.foldl_nil, List.flatMap_nil, List.map_nil, List.append_nil]
    refine Prod.ext ?_ rfl
    funext s
    by_cases hs : s = source
    · simp [hs]
    · simp [hs]
  | cons ln rest ih =>
    intro bps acc
    cases hres : resolve source ln with
    | none =>
      rw [List.foldl_cons]
      have hstep : (let r := verify_and_set_breakpoint resolve (bps, acc).1 source ln
          ((r.1 : String → List Nat), (bps, acc).2 ++ [r.2])) = (bps, acc ++ [false]) := by
        simp [verify_and_set_breakpoint, hres]
      rw [hstep, ih]
      refine Prod.ext ?_ ?_
      · funext s
        by_cases hs : s = source <;> simp [hs, hres]
      · simp [hres]
    | some idxs =>
      rw [List.foldl_cons]
      have hstep : (let r := verify_and_set_breakpoint resolve (bps, acc).1 source ln
          ((r.1 : String → List Nat), (bps, acc).2 ++ [r.2])) =
          ((fun s => if s = source then bps source ++ idxs else bps s),
            acc ++ [true]) := by
        simp [verify_and_set_breakpoint, hres]
      rw [hstep, ih]
      refine Prod.ext ?_ ?_
      · funext s
        by_cases hs : s = source <;> simp [hs, hres, List.append_assoc]
      · simp [hres]

/-- C5: handling `SetBreakpoints(file, lines)` first clears every previously
recorded breakpoint for the file, then verifies each requested line in
order: the per-line verified flag is `true` exactly when the line resolves
through the context, and the resulting table holds for the file exactly the
statement indices the lines resolved to (other files are untouched).  In
particular an empty line list leaves no breakpoints recorded for the file
and verifies none. -/
theorem C5_set_breakpoints_replace_and_verify
    (resolve : String → Nat → Option (List Nat)) (bps : String → List Nat)
    (source : String) (lines : List Nat) :
    ((handleSetBreakpoints resolve bps source lines).2 =
        lines.map fun ln => (resolve source ln).isSome) ∧
    ((handleSetBreakpoints resolve bps source lines).1 source =
        lines.flatMap fun ln => (resolve source ln).getD []) ∧
    (∀ s, s ≠ source →
        (handleSetBreakpoints resolve bps source lines).1 s = bps s) ∧
    (lines = [] →
        (handleSetBreakpoints resolve bps source lines).1 source = [] ∧
        (handleSetBreakpoints resolve bps source lines).2 = []) := by
  unfold handleSetBreakpoints
  rw [setBreakpoints_loop]
  refine ⟨by simp, by simp [clear_breakpoints], ?_, ?_⟩
  · intro s hs
    simp [clear_breakpoints, hs]
  · intro hnil
    subst hnil
    simp [clear_breakpoints]

/-- Witness for C5: re-issuing `SetBreakpoints` with an empty line list on a
file that had breakpoint 9 recorded leaves nothing recorded and verifies
nothing. -/
theorem C5_set_breakpoints_replace_and_verify_witness :
    (handleSetBreakpoints (fun f ln => if f = "a" ∧ ln = 5 then some [2] else none)
        (fun s => if s = "a" then [9] else []) "a" []).1 "a" = [] ∧
    (handleSetBreakpoints (fun f ln => if f = "a" ∧ ln = 5 then some [2] else none)
        (fun s => if s = "a" then [9] else []) "a" []).2 = [] :=
  (C5_set_breakpoints_replace_and_verify
      (fun f ln => if f = "a" ∧ ln = 5 then some [2] else none)
      (fun s => if s = "a" then [9] else []) "a" []).2.2.2 rfl

/-- C6 (counterexample): the `Next` request is not rejected as unsupported —
so under the claim's definition the session "accepts" it — yet handling it
enqueues no response at all: its arm is a `todo!()` placeholder that panics
(likewise StepIn, StepOut, Source and Disconnect). -/
theorem C6_response_counterexample :
    (handle_request Command.next).isRejectedOutcome = false ∧
    responseCount (handle_request Command.next).sendsOf = 0 := by
  decide

/-- C6 (amended): every request whose handler completes normally — every
request that is neither rejected as unsupported nor one of the five
unimplemented `todo!()` placeholders (Next, StepIn, StepOut, Source,
Disconnect) — enqueues exactly one Response, even when the handling also
emits events; in particular Pause emits its Stopped event and still
enqueues the Pause response. -/
theorem C6_one_response_per_accepted_request :
    (∀ (c : Command) (sends : List Sendable) (eff : StateEffect),
        handle_request c = Outcome.ok sends eff → responseCount sends = 1) ∧
    handle_request Command.pause =
      Outcome.ok [Sendable.event EventKind.stoppedEv, Sendable.response true]
        StateEffect.stopExecution := by
  constructor
  · intro c sends eff h
    cases c <;> cases h <;> rfl
  · rfl

/-- Witness for C6: the amended statement applied to the Pause request. -/
theorem C6_one_response_per_accepted_request_witness :
    responseCount [Sendable.event EventKind.stoppedEv, Sendable.response true] = 1 :=
  C6_one_response_per_accepted_request.1 Command.pause
    [Sendable.event EventKind.stoppedEv, Sendable.response true]
    StateEffect.stopExecution rfl

/-- C7: one `sync_with_vm` call entered from the VM pre-step hook while
running dispatches every request queued on the inbound channel at that
moment, in order; provided no dispatched request stops execution (and none
is session-fatal), every receive it performs is non-blocking — one
`try_next_request` per request plus the final one that finds the queue
empty — and the call completes without error. -/
theorem C7_sync_drains_nonblocking (queue : List Command)
    (hok : ∀ c ∈ queue, (handle_request c).isOkOutcome = true)
    (hnostop : ∀ c ∈ queue, (handle_request c).effectOf ≠ StateEffect.stopExecution) :
    (sync_with_vm false queue).processed = queue ∧
    (sync_with_vm false queue).recvs =
      List.replicate (queue.length + 1) RecvKind.nonblockingRecv ∧
    (sync_with_vm false queue).fatal = false := by
  induction queue with
  | nil => exact ⟨rfl, rfl, rfl⟩
  | cons c rest ih =>
    have hokc := hok c (List.mem_cons_self c rest)
    have hnostopc := hnostop c (List.mem_cons_self c rest)
    rcases ih (fun d hd => hok d (List.mem_cons_of_mem c hd))
      (fun d hd => hnostop d (List.mem_cons_of_mem c hd)) with ⟨hp, hr, hf⟩
    cases hh : handle_request c with
    | rejected s =>
      rw [hh] at hokc
      cases hokc
    | unimplemented =>
      rw [hh] at hokc
      cases hokc
    | ok sends eff =>
      have heff : applyEffect false eff = false := by
        rw [hh] at hnostopc
        cases eff
        · rfl
        · exact absurd rfl hnostopc
        · rfl
        · rfl
      unfold sync_with_vm at hp hr hf ⊢
      refine ⟨?_, ?_, ?_⟩ <;>
        simp [syncAux, hh, heff, recvKindFor, hp, hr, hf, List.replicate_succ]

/-- Witness for C7: a queue holding a Continue and a Threads request is
fully dispatched with only non-blocking receives. -/
theorem C7_sync_drains_nonblocking_witness :
    (sync_with_vm false [Command.continueCmd, Command.threads]).processed =
      [Command.continueCmd, Command.threads] :=
  (C7_sync_drains_nonblocking [Command.continueCmd, Command.threads]
    (by decide) (by decide)).1

/-- C8: every command of the claim's rejected set is answered with exactly
one failed response (carrying a message) and a session-fatal error return —
the `bail!` whose `Err` propagates through `?` and ends the session — never
silently ignored: the sync loop stops after dispatching it, processing
nothing further. -/
theorem C8_rejected_commands_fail_fast (c : Command)
    (hc : isRejectedCommand c = true) :
    handle_request c = Outcome.rejected [Sendable.response false] ∧
    (∀ (stopped : Bool) (rest : List Command),
      (sync_with_vm stopped (c :: rest)).fatal = true ∧
      (sync_with_vm stopped (c :: rest)).processed = [c]) := by
  have hmain : handle_request c = Outcome.rejected [Sendable.response false] := by
    cases c <;> first | rfl | exact Bool.noConfusion hc
  refine ⟨hmain, ?_⟩
  intro stopped rest
  constructor <;> simp [sync_with_vm, syncAux, hmain]

/-- Witness for C8: the Attach request is rejected with one failed response
and a fatal error. -/
theorem C8_rejected_commands_fail_fast_witness :
    handle_request Command.attach = Outcome.rejected [Sendable.response false] :=
  (C8_rejected_commands_fail_fast Command.attach (by decide)).1

/-- C9: the drop handler attempts the Terminated send first and the Exited
send second, unconditionally (a failure of either is logged — one log line
per failed send — and never prevents the other attempt nor panics, the
function being total); when the outbound channel accepts them, exactly one
Terminated and exactly one Exited event are enqueued, Terminated before
Exited. -/
theorem C9_teardown_events (sendFails : EventKind → Bool) :
    (sendFails EventKind.terminatedEv = false →
      sendFails EventKind.exitedEv = false →
      (dropTeardown sendFails).1 = [EventKind.terminatedEv, EventKind.exitedEv]) ∧
    ((dropTeardown sendFails).1.count EventKind.terminatedEv =
      if sendFails EventKind.terminatedEv then 0 else 1) ∧
    ((dropTeardown sendFails).1.count EventKind.exitedEv =
      if sendFails EventKind.exitedEv then 0 else 1) ∧
    ((dropTeardown sendFails).2.length =
      (if sendFails EventKind.terminatedEv then 1 else 0) +
        (if sendFails EventKind.exitedEv then 1 else 0)) := by
  cases ht : sendFails EventKind.terminatedEv <;>
    cases he : sendFails EventKind.exitedEv <;>
      refine ⟨?_, ?_, ?_, ?_⟩ <;>
        simp +decide [dropTeardown, ht, he]

/-- Witness for C9: with a live channel, teardown enqueues exactly
Terminated then Exited. -/
theorem C9_teardown_events_witness :
    (dropTeardown fun _ => false).1 =
      [EventKind.terminatedEv, EventKind.exitedEv] :=
  (C9_teardown_events (fun _ => false)).1 rfl rfl

/-- C10: every frame rendered by one `get_frames` call carries the id
`MIN_OBJECT_REFERENCE + 2 * (number of stored call frames)` — the same
value for every frame, independent of its position in the innermost-first
result — except the Unknown placeholder frames, which carry id 1; frame ids
therefore do not distinguish the frames of one stack trace. -/
theorem C10_frame_ids_uniform (cs : CallStack) (ctx : FrameCtx)
    (statement_idx : Nat) (frame : StackFrame)
    (hmem : frame ∈ get_frames cs statement_idx ctx) :
    frame.id = MIN_OBJECT_REFERENCE + 2 * (cs.call_ids.length : Int) ∨
      (frame.name = "Unknown" ∧ frame.id = 1) := by
  unfold get_frames at hmem
  rcases List.mem_flatMap.mp hmem with ⟨idx, _, hf⟩
  unfold build_stack_frames at hf
  cases h : ctx.code_locations idx with
  | none =>
    rw [h] at hf
    rcases List.mem_singleton.mp hf with rfl
    exact Or.inr ⟨rfl, rfl⟩
  | some locs =>
    rw [h] at hf
    simp only [List.mem_map] at hf
    rcases hf with ⟨p, _, heq⟩
    rw [← heq]
    exact Or.inl rfl

/-- Witness for C10: with one stored call frame (statement 2) and a current
statement 5 that has no code location, the rendered Unknown frame satisfies
the id rule. -/
theorem C10_frame_ids_uniform_witness :
    unknown_frame.id =
        MIN_OBJECT_REFERENCE + 2 * ((CallStack.mk [2] none).call_ids.length : Int) ∨
      (unknown_frame.name = "Unknown" ∧ unknown_frame.id = 1) :=
  C10_frame_ids_uniform (CallStack.mk [2] none)
    (FrameCtx.mk (fun idx => if idx = 2 then some [Loc.mk "a" 1 0] else none)
      (fun _ => none))
    5 unknown_frame (by decide)
